import Mathlib

/-!
Verification of the span-consensus and conflict-resolution core of the
pdfmasking repository.  Python sources are shallowly embedded: detection
results and candidates become structures over `Nat` offsets and rational
scores, Python's stable `sorted` becomes `List.insertionSort`, Python sets
of covered character positions become `Finset ℕ`, and each processing
function is translated clause by clause from the source.
-/

namespace PdfMasking

/-- Detection result as used by the result processors (presidio
`RecognizerResult`): an entity type, a character span `[start, end)` and a
confidence score.  Scores, Python floats, are modelled as rationals. -/
structure RecResult where
  entity_type : String
  start : Nat
  end_ : Nat
  score : ℚ
deriving DecidableEq, Repr

/-- Character positions of a result, `set(range(start, end))` in the source. -/
def spanSet (r : RecResult) : Finset ℕ := Finset.Ico r.start r.end_

/-! ### Dual detection (`src/core/processors/dual_detection.py`) -/

/-- Translation of `normalize_entity_type` (dual_detection.py lines 12-29):
scan the category table in order; on the first category whose member list
contains the entity type return the upper-cased category name, otherwise
return the entity type unchanged. -/
def normalize_entity_type (entity_type : String) (entity_categories : List (String × List String)) : String :=
  match entity_categories with
  | [] => entity_type
  | (category, types) :: rest =>
    if entity_type ∈ types then category.toUpper
    else normalize_entity_type entity_type rest

/-- Union of all category member lists: the set of entity types that require
dual detection (dual_detection.py lines 146-148). -/
def dual_detection_entity_types (entity_categories : List (String × List String)) : List String :=
  entity_categories.flatMap Prod.snd

/-- Qualification test applied to a pattern result `p` and a transformer
result `t` inside the consensus loop (dual_detection.py lines 165-180):
the spans overlap in at least half of the smaller span (`len(overlap) >=
min_span_len * 0.5` with `min_span_len > 0`) and the normalized entity
types agree. -/
def Qualifies (cats : List (String × List String)) (p t : RecResult) : Prop :=
  0 < min (spanSet p).card (spanSet t).card ∧
  min (spanSet p).card (spanSet t).card ≤ 2 * (spanSet p ∩ spanSet t).card ∧
  normalize_entity_type p.entity_type cats = normalize_entity_type t.entity_type cats

instance instDecQualifies (cats : List (String × List String)) (p t : RecResult) :
    Decidable (Qualifies cats p t) := by
  unfold Qualifies
  infer_instance

/-- Inner loop of the consensus pass: walk the transformer results in order
and stop at the first one qualifying against `p` (the `break` at
dual_detection.py line 190). -/
def dualInner (cats : List (String × List String)) (p : RecResult) : List RecResult → Option RecResult
  | [] => none
  | t :: rest => if Qualifies cats p t then some t else dualInner cats p rest

/-- The `confirmed_results` computation of `dual_detection_analyze`
(dual_detection.py lines 155-192): a pattern result whose entity type is in
no category passes through directly; otherwise it is appended exactly when
the transformer results contain a qualifying match. -/
def dual_detection_confirmed (cats : List (String × List String)) (transformer_results : List RecResult) :
    List RecResult → List RecResult
  | [] => []
  | p :: ps =>
    if p.entity_type ∈ dual_detection_entity_types cats then
      match dualInner cats p transformer_results with
      | some _ => p :: dual_detection_confirmed cats transformer_results ps
      | none => dual_detection_confirmed cats transformer_results ps
    else
      p :: dual_detection_confirmed cats transformer_results ps

lemma dualInner_eq_none_iff (cats : List (String × List String)) (p : RecResult) (ts : List RecResult) :
    dualInner cats p ts = none ↔ ∀ t ∈ ts, ¬ Qualifies cats p t := by
  induction ts with
  | nil => simp [dualInner]
  | cons t rest ih =>
    by_cases h : Qualifies cats p t
    · simp [dualInner, h]
    · simp [dualInner, h, ih]

lemma dualInner_eq_find (cats : List (String × List String)) (p : RecResult) (ts : List RecResult) :
    dualInner cats p ts = ts.find? (fun t => decide (Qualifies cats p t)) := by
  induction ts with
  | nil => simp [dualInner]
  | cons t rest ih =>
    by_cases h : Qualifies cats p t
    · simp [dualInner, h, List.find?]
    · simp [dualInner, h, List.find?, ih]

/-- C1.  The consensus loop of `dual_detection_analyze` keeps exactly the
pattern results that either carry an entity type outside every category of
the table (unconditional pass-through) or have some transformer result with
at least 50%-of-the-smaller-span overlap and equal normalized category; the
per-pattern scan stops at the first qualifying transformer result. -/
theorem dual_detection_consensus (cats : List (String × List String))
    (ts ps : List RecResult) :
    dual_detection_confirmed cats ts ps =
      ps.filter (fun p =>
        decide (p.entity_type ∈ dual_detection_entity_types cats → ∃ t ∈ ts, Qualifies cats p t)) ∧
    ∀ p : RecResult, dualInner cats p ts = ts.find? (fun t => decide (Qualifies cats p t)) := by
  constructor
  · induction ps with
    | nil => simp [dual_detection_confirmed]
    | cons p ps ih =>
      by_cases hmem : p.entity_type ∈ dual_detection_entity_types cats
      · rcases hfind : dualInner cats p ts with _ | t
        · have hall : ∀ t ∈ ts, ¬ Qualifies cats p t :=
            (dualInner_eq_none_iff cats p ts).1 hfind
          have hnot : ¬ ∃ t ∈ ts, Qualifies cats p t := by
            rintro ⟨t, ht, hq⟩
            exact hall t ht hq
          simp only [dual_detection_confirmed, hmem, hfind, if_pos, List.filter_cons, ih]
          simp [hmem, hnot]
        · have hq : ∃ t ∈ ts, Qualifies cats p t := by
            have hne : ¬ ∀ t ∈ ts, ¬ Qualifies cats p t := by
              rw [← dualInner_eq_none_iff]
              simp [hfind]
            push_neg at hne
            exact hne
          simp only [dual_detection_confirmed, hmem, hfind, if_pos, List.filter_cons, ih]
          simp [hmem, hq]
      · simp only [dual_detection_confirmed, hmem, List.filter_cons, ih]
        simp [hmem]
  · intro p
    exact dualInner_eq_find cats p ts

/-! ### Span merge / deduplication engine (`src/core/processors/result.py`)

Python's `sorted` is a stable sort; `List.insertionSort` is stable for the
same total preorder, hence extensionally identical on every input. -/

/-- Sort key `(-x.score, x.start)` of `deduplicate_results`, as the total
preorder it induces. -/
def dedupLE (a b : RecResult) : Prop :=
  b.score < a.score ∨ (a.score = b.score ∧ a.start ≤ b.start)

/-- Final re-sort key `x.start` used by both engines. -/
def startLE (a b : RecResult) : Prop := a.start ≤ b.start

/-- Sort key `(-x.score, -(x.end - x.start), x.start)` of `merge_results`;
the span length is an integer difference in the source. -/
def mergeLE (a b : RecResult) : Prop :=
  b.score < a.score ∨ (a.score = b.score ∧
    ((b.end_ : ℤ) - b.start < (a.end_ : ℤ) - a.start ∨
      ((a.end_ : ℤ) - a.start = (b.end_ : ℤ) - b.start ∧ a.start ≤ b.start)))

instance instDecDedupLE : DecidableRel dedupLE := fun a b => by
  unfold dedupLE; infer_instance

instance instDecStartLE : DecidableRel startLE := fun a b => by
  unfold startLE; infer_instance

instance instDecMergeLE : DecidableRel mergeLE := fun a b => by
  unfold mergeLE; infer_instance

instance instTotalDedupLE : IsTotal RecResult dedupLE where
  total a b := by
    unfold dedupLE
    rcases lt_trichotomy a.score b.score with h | h | h
    · exact Or.inr (Or.inl h)
    · rcases Nat.le_total a.start b.start with hs | hs
      · exact Or.inl (Or.inr ⟨h, hs⟩)
      · exact Or.inr (Or.inr ⟨h.symm, hs⟩)
    · exact Or.inl (Or.inl h)

instance instTransDedupLE : IsTrans RecResult dedupLE where
  trans a b c hab hbc := by
    unfold dedupLE at *
    rcases hab with h1 | ⟨h1, h1s⟩ <;> rcases hbc with h2 | ⟨h2, h2s⟩
    · exact Or.inl (h2.trans h1)
    · exact Or.inl (lt_of_eq_of_lt h2.symm h1)
    · exact Or.inl (lt_of_lt_of_eq h2 h1.symm)
    · exact Or.inr ⟨h1.trans h2, h1s.trans h2s⟩

instance instTotalStartLE : IsTotal RecResult startLE where
  total a b := Nat.le_total a.start b.start

instance instTransStartLE : IsTrans RecResult startLE where
  trans _ _ _ hab hbc := Nat.le_trans hab hbc

instance instTotalMergeLE : IsTotal RecResult mergeLE where
  total a b := by
    unfold mergeLE
    rcases lt_trichotomy a.score b.score with h | h | h
    · exact Or.inr (Or.inl h)
    · rcases lt_trichotomy ((a.end_ : ℤ) - a.start) ((b.end_ : ℤ) - b.start) with hl | hl | hl
      · exact Or.inr (Or.inr ⟨h.symm, Or.inl hl⟩)
      · rcases Nat.le_total a.start b.start with hs | hs
        · exact Or.inl (Or.inr ⟨h, Or.inr ⟨hl, hs⟩⟩)
        · exact Or.inr (Or.inr ⟨h.symm, Or.inr ⟨hl.symm, hs⟩⟩)
      · exact Or.inl (Or.inr ⟨h, Or.inl hl⟩)
    · exact Or.inl (Or.inl h)

instance instTransMergeLE : IsTrans RecResult mergeLE where
  trans a b c hab hbc := by
    unfold mergeLE at *
    rcases hab with h1 | ⟨h1, h1r⟩
    · rcases hbc with h2 | ⟨h2, _⟩
      · exact Or.inl (h2.trans h1)
      · exact Or.inl (lt_of_eq_of_lt h2.symm h1)
    · rcases hbc with h2 | ⟨h2, h2r⟩
      · exact Or.inl (lt_of_lt_of_eq h2 h1.symm)
      · refine Or.inr ⟨h1.trans h2, ?_⟩
        rcases h1r with hl1 | ⟨hl1, hs1⟩ <;> rcases h2r with hl2 | ⟨hl2, hs2⟩
        · exact Or.inl (hl2.trans hl1)
        · exact Or.inl (lt_of_eq_of_lt hl2.symm hl1)
        · exact Or.inl (lt_of_lt_of_eq hl2 hl1.symm)
        · exact Or.inr ⟨hl1.trans hl2, hs1.trans hs2⟩

/-- Greedy pass of `deduplicate_results` (result.py lines 27-40): walk the
score-sorted results, skip a result as soon as any of its character
positions is already covered, else accept it and cover its positions. -/
def dedupGreedy : List RecResult → Finset ℕ → List RecResult
  | [], _ => []
  | r :: rest, covered =>
    if (spanSet r ∩ covered).Nonempty then dedupGreedy rest covered
    else r :: dedupGreedy rest (covered ∪ spanSet r)

/-- Translation of `deduplicate_results` (result.py lines 9-44).  The `text`
argument is carried but unused, as in the source. -/
def deduplicate_results (results : List RecResult) (text : String) : List RecResult :=
  List.insertionSort startLE (dedupGreedy (List.insertionSort dedupLE results) ∅)

/-- Greedy pass of `merge_results` (result.py lines 69-82): skip a result
whenever its overlap with covered positions exceeds 50% of its own length
(`len(overlap) > len(result_positions) * 0.5`), else accept. -/
def mergeGreedy : List RecResult → Finset ℕ → List RecResult
  | [], _ => []
  | r :: rest, covered =>
    if (spanSet r).card < 2 * (spanSet r ∩ covered).card then mergeGreedy rest covered
    else r :: mergeGreedy rest (covered ∪ spanSet r)

/-- Translation of `merge_results` (result.py lines 47-86). -/
def merge_results (results_en results_ja : List RecResult) : List RecResult :=
  List.insertionSort startLE
    (mergeGreedy (List.insertionSort mergeLE (results_en ++ results_ja)) ∅)

/-! ### Stability machinery for the sorting passes -/

lemma orderedInsert_eq_cons {α : Type} {key : α → α → Prop} [DecidableRel key]
    (a : α) (l : List α) (h : ∀ b ∈ l, key a b) :
    l.orderedInsert key a = a :: l := by
  cases l with
  | nil => rfl
  | cons b t => simp [List.orderedInsert, h b (by simp)]

/-- Inserting a strict lower bound `a` into the middle of a list commutes with
insertion sort: everything in `u₁` is strictly above `a`, everything in `u₂`
is at least `a`, so `a` floats to the front. -/
lemma insertionSort_middle_cons {α : Type} {key : α → α → Prop} [DecidableRel key]
    (a : α) (u₁ u₂ : List α) (h1 : ∀ b ∈ u₁, ¬ key b a) (h2 : ∀ b ∈ u₂, key a b) :
    List.insertionSort key (u₁ ++ a :: u₂) = a :: List.insertionSort key (u₁ ++ u₂) := by
  induction u₁ with
  | nil =>
    simp only [List.nil_append, List.insertionSort]
    exact orderedInsert_eq_cons a _ (fun b hb => h2 b ((List.mem_insertionSort _).1 hb))
  | cons b u₁ ih =>
    have hb : ¬ key b a := h1 b (by simp)
    have ih' := ih (fun x hx => h1 x (by simp [hx]))
    simp only [List.cons_append, List.insertionSort, List.append_eq] at ih' ⊢
    rw [ih']
    simp [List.orderedInsert, hb]

/-- Re-sorting with `key` after a stable sort with `s` recovers a
`key`-sorted list, provided `key`-ties are `s`-ties. -/
lemma insertionSort_of_sorted_stable {α : Type} {key s : α → α → Prop}
    [DecidableRel key] [DecidableRel s]
    (tie : ∀ a b, key a b → key b a → s a b) :
    ∀ z : List α, z.Sorted key →
      List.insertionSort key (List.insertionSort s z) = z := by
  intro z
  induction z with
  | nil => simp
  | cons a z ih =>
    intro hz
    have ha : ∀ b ∈ z, key a b := List.rel_of_sorted_cons hz
    have hz' : z.Sorted key := hz.of_cons
    simp only [List.insertionSort]
    rw [List.orderedInsert_eq_take_drop]
    have htake : ∀ b ∈ (List.insertionSort s z).takeWhile (fun b => ¬ s a b), ¬ key b a := by
      intro b hb
      have hsb : ¬ s a b := by simpa using List.mem_takeWhile_imp hb
      have hmem : b ∈ z :=
        (List.mem_insertionSort _).1 ((List.takeWhile_sublist _).subset hb)
      intro hba
      exact hsb (tie a b (ha b hmem) hba)
    have hdrop : ∀ b ∈ (List.insertionSort s z).dropWhile (fun b => ¬ s a b), key a b := by
      intro b hb
      exact ha b ((List.mem_insertionSort _).1 ((List.dropWhile_sublist _).subset hb))
    rw [insertionSort_middle_cons a _ _ htake hdrop,
        List.takeWhile_append_dropWhile, ih hz']

/-! ### Properties of the greedy passes -/

lemma dedupGreedy_sublist : ∀ (l : List RecResult) (cov : Finset ℕ),
    List.Sublist (dedupGreedy l cov) l := by
  intro l
  induction l with
  | nil => intro cov; simp [dedupGreedy]
  | cons r rest ih =>
    intro cov
    by_cases h : (spanSet r ∩ cov).Nonempty
    · simp only [dedupGreedy, if_pos h]
      exact (ih cov).trans (List.sublist_cons_self r rest)
    · simp only [dedupGreedy, if_neg h]
      exact (ih (cov ∪ spanSet r)).cons₂ r

lemma dedupGreedy_disjoint : ∀ (l : List RecResult) (cov : Finset ℕ),
    ∀ x ∈ dedupGreedy l cov, Disjoint (spanSet x) cov := by
  intro l
  induction l with
  | nil => intro cov x hx; simp [dedupGreedy] at hx
  | cons r rest ih =>
    intro cov x hx
    by_cases h : (spanSet r ∩ cov).Nonempty
    · rw [dedupGreedy, if_pos h] at hx
      exact ih cov x hx
    · rw [dedupGreedy, if_neg h] at hx
      rcases List.mem_cons.1 hx with rfl | hx
      · exact Finset.disjoint_iff_inter_eq_empty.2
          (Finset.not_nonempty_iff_eq_empty.1 h)
      · exact Finset.disjoint_union_right.1 (ih (cov ∪ spanSet r) x hx) |>.1

lemma dedupGreedy_pairwise : ∀ (l : List RecResult) (cov : Finset ℕ),
    (dedupGreedy l cov).Pairwise (fun a b => Disjoint (spanSet a) (spanSet b)) := by
  intro l
  induction l with
  | nil => intro cov; simp [dedupGreedy]
  | cons r rest ih =>
    intro cov
    by_cases h : (spanSet r ∩ cov).Nonempty
    · simpa only [dedupGreedy, if_pos h] using ih cov
    · rw [dedupGreedy, if_neg h]
      refine List.Pairwise.cons ?_ (ih (cov ∪ spanSet r))
      intro y hy
      exact ((Finset.disjoint_union_right.1
        (dedupGreedy_disjoint rest (cov ∪ spanSet r) y hy)).2).symm

lemma dedupGreedy_of_pairwise : ∀ (l : List RecResult) (cov : Finset ℕ),
    l.Pairwise (fun a b => Disjoint (spanSet a) (spanSet b)) →
    (∀ x ∈ l, Disjoint (spanSet x) cov) → dedupGreedy l cov = l := by
  intro l
  induction l with
  | nil => intro cov _ _; rfl
  | cons r rest ih =>
    intro cov hp hd
    have hr : Disjoint (spanSet r) cov := hd r (by simp)
    have hno : ¬ (spanSet r ∩ cov).Nonempty := by
      rw [Finset.not_nonempty_iff_eq_empty]
      exact Finset.disjoint_iff_inter_eq_empty.1 hr
    rw [dedupGreedy, if_neg hno]
    congr 1
    refine ih (cov ∪ spanSet r) hp.of_cons ?_
    intro x hx
    exact Finset.disjoint_union_right.2
      ⟨hd x (by simp [hx]), ((List.rel_of_pairwise_cons hp hx)).symm⟩

lemma disjoint_spans_nonoverlap {a b : RecResult} (ha : a.start < a.end_)
    (hb : b.start < b.end_) (hd : Disjoint (spanSet a) (spanSet b)) :
    a.end_ ≤ b.start ∨ b.end_ ≤ a.start := by
  have h1 : spanSet a ∩ spanSet b = ∅ := Finset.disjoint_iff_inter_eq_empty.1 hd
  unfold spanSet at h1
  rw [Finset.Ico_inter_Ico] at h1
  have h2 := Finset.Ico_eq_empty_iff.1 h1
  omega

/-- C2.  On inputs whose spans are nonempty, `deduplicate_results` returns a
list with pairwise non-overlapping `[start, end)` ranges, sorted by `start`
ascending. -/
theorem deduplicate_results_nonoverlap (results : List RecResult) (text : String)
    (h : ∀ r ∈ results, r.start < r.end_) :
    (deduplicate_results results text).Pairwise
      (fun a b => a.end_ ≤ b.start ∨ b.end_ ≤ a.start) ∧
    (deduplicate_results results text).Sorted startLE := by
  constructor
  · have hz : (dedupGreedy (List.insertionSort dedupLE results) ∅).Pairwise
        (fun a b => Disjoint (spanSet a) (spanSet b)) := dedupGreedy_pairwise _ _
    have hperm : List.Perm
        (List.insertionSort startLE (dedupGreedy (List.insertionSort dedupLE results) ∅))
        (dedupGreedy (List.insertionSort dedupLE results) ∅) :=
      List.perm_insertionSort _ _
    have hpair : (deduplicate_results results text).Pairwise
        (fun a b => Disjoint (spanSet a) (spanSet b)) := by
      unfold deduplicate_results
      exact (hperm.pairwise_iff (fun hxy => hxy.symm)).2 hz
    have hmemres : ∀ x ∈ deduplicate_results results text, x ∈ results := by
      intro x hx
      unfold deduplicate_results at hx
      have hx1 := (List.mem_insertionSort _).1 hx
      have hx2 := (dedupGreedy_sublist _ _).subset hx1
      exact (List.mem_insertionSort _).1 hx2
    refine hpair.imp_of_mem ?_
    intro a b ha hb hd
    exact disjoint_spans_nonoverlap (h a (hmemres a ha)) (h b (hmemres b hb)) hd
  · unfold deduplicate_results
    exact List.sorted_insertionSort startLE _

/-- Witness for C2 at a concrete input with nonempty, overlapping spans. -/
theorem deduplicate_results_nonoverlap_witness :
    (deduplicate_results [⟨"A", 0, 3, 1⟩, ⟨"B", 2, 5, 2⟩] "t").Pairwise
      (fun a b => a.end_ ≤ b.start ∨ b.end_ ≤ a.start) ∧
    (deduplicate_results [⟨"A", 0, 3, 1⟩, ⟨"B", 2, 5, 2⟩] "t").Sorted startLE :=
  deduplicate_results_nonoverlap [⟨"A", 0, 3, 1⟩, ⟨"B", 2, 5, 2⟩] "t" (by decide)

/-- C9.  The strict same-run dedupe is idempotent on every input list. -/
theorem deduplicate_results_idempotent (results : List RecResult) (text : String) :
    deduplicate_results (deduplicate_results results text) text =
      deduplicate_results results text := by
  have htie : ∀ a b : RecResult, dedupLE a b → dedupLE b a → startLE a b := by
    intro a b hab hba
    rcases hab with h1 | ⟨_, h1s⟩
    · rcases hba with h2 | ⟨h2, _⟩
      · exact absurd h2 (lt_asymm h1)
      · rw [h2] at h1
        exact absurd h1 (lt_irrefl _)
    · exact h1s
  have hzsorted : (dedupGreedy (List.insertionSort dedupLE results) ∅).Sorted dedupLE :=
    List.Pairwise.sublist (dedupGreedy_sublist _ _)
      (List.sorted_insertionSort dedupLE results)
  unfold deduplicate_results
  rw [insertionSort_of_sorted_stable htie _ hzsorted,
      dedupGreedy_of_pairwise _ ∅ (dedupGreedy_pairwise _ _)
        (fun x _ => Finset.disjoint_empty_right _)]

/-- C10.  The cross-run overlap merge accepts a span whose overlap with
covered positions is exactly half of its own length, so its output can
contain two overlapping spans; non-overlap is not an invariant of
`merge_results` alone. -/
theorem merge_results_overlapping_output :
    merge_results [⟨"PERSON", 0, 4, 1⟩] [⟨"PERSON", 2, 6, 0⟩] =
      [⟨"PERSON", 0, 4, 1⟩, ⟨"PERSON", 2, 6, 0⟩] ∧
    (spanSet ⟨"PERSON", 0, 4, 1⟩ ∩ spanSet ⟨"PERSON", 2, 6, 0⟩).Nonempty := by
  decide

/-! ### Candidates and verification results
(`src/core/processors/candidate_extractor.py`, `candidate_verifier.py`) -/

/-- PII candidate (`Candidate` dataclass, candidate_extractor.py lines 14-24). -/
structure Candidate where
  entity_type : String
  text : String
  start : Nat
  end_ : Nat
  score : ℚ
  source : String
  section_id : String
  section_type : String
deriving DecidableEq, Repr

/-- Verification outcome (`VerificationResult` dataclass, candidate_verifier.py
lines 16-22). -/
structure VerificationResult where
  candidate : Candidate
  verified_score : ℚ
  status : String
  reason : String
deriving DecidableEq, Repr

/-- Per-section score adjustments; each field is the value the source reads
with `policy.get(key, 0)`. -/
structure SectionPolicy where
  person_penalty : ℚ
  person_boost : ℚ
  address_penalty : ℚ
  address_boost : ℚ
deriving DecidableEq, Repr

/-- Effective verifier configuration after `_load_verification_config` and
`_load_allow_list`: thresholds, section policies, entity priority and the two
allow-list sets (exact and normalized). -/
structure VerifierConfig where
  mask_threshold : ℚ
  review_threshold : ℚ
  section_policies : List (String × SectionPolicy)
  entity_priority : List String
  allow_list : List String
  allow_list_normalized : List String

/-- `CandidateVerifier.DEFAULT_PRIORITY` (candidate_verifier.py lines 43-57). -/
def DEFAULT_PRIORITY : List String :=
  ["EMAIL_ADDRESS", "PHONE_NUMBER_JP", "PHONE_NUMBER", "JP_ZIP_CODE",
   "US_ZIP_CODE", "JP_ADDRESS", "LOCATION", "JP_PERSON", "PERSON",
   "DATE_OF_BIRTH_JP", "DATE", "JP_AGE", "JP_GENDER"]

/-- Default `entity_priority` of `CandidateExtractor._load_extraction_config`
(candidate_extractor.py lines 107-113). -/
def default_extraction_priority : List String :=
  ["EMAIL_ADDRESS", "PHONE_NUMBER_JP", "JP_ZIP_CODE", "JP_ADDRESS", "JP_PERSON"]

/-- `entity_priority.index(t)` with `ValueError` mapped to the list length,
as in `_get_priority` / `priority_key` (candidate_verifier.py lines 428-433,
candidate_extractor.py lines 593-597). -/
def priority_index (prio : List String) (t : String) : Nat := prio.indexOf t

/-- `_overlaps` (identical in candidate_extractor.py line 624 and
candidate_verifier.py line 424). -/
def overlapsB (c1 c2 : Candidate) : Bool :=
  !(decide (c1.end_ ≤ c2.start) || decide (c2.end_ ≤ c1.start))

/-! ### A small regex interpreter for the anchored validation patterns

Each validator in `_validate_format` tests whether the stripped candidate
text belongs to the language of an anchored Python regex.  The patterns use
only literals, character classes with counted repetition, alternation and an
optional group, so they are transliterated into the `Regex` type below and
decided by enumerating every split (`matchRuns` returns all remainders after
matching a prefix).  The validators' inputs are stripped first, so the
newline subtlety of Python's `$` cannot arise. -/

inductive Regex where
  | lit : Char → Regex
  | cls : (Char → Bool) → Nat → Option Nat → Regex
  | seq : Regex → Regex → Regex
  | alt : Regex → Regex → Regex
  | opt : Regex → Regex

/-- All ways to consume a (possibly empty) run of class characters from the
front, with the length consumed. -/
def clsRuns (p : Char → Bool) : List Char → List (Nat × List Char)
  | [] => [(0, [])]
  | c :: cs =>
    (0, c :: cs) :: (if p c then (clsRuns p cs).map (fun nr => (nr.1 + 1, nr.2)) else [])

def withinMax : Option Nat → Nat → Bool
  | none, _ => true
  | some m, n => n ≤ m

/-- All remainders after matching a prefix of `cs` against `r`. -/
def matchRuns : Regex → List Char → List (List Char)
  | .lit _, [] => []
  | .lit c, d :: cs => if d = c then [cs] else []
  | .cls p mn mx, cs =>
    ((clsRuns p cs).filter (fun nr => mn ≤ nr.1 && withinMax mx nr.1)).map Prod.snd
  | .seq a b, cs => (matchRuns a cs).flatMap (matchRuns b)
  | .alt a b, cs => matchRuns a cs ++ matchRuns b cs
  | .opt a, cs => cs :: matchRuns a cs

/-- Language membership: the pattern, anchored on both sides, accepts `s`. -/
def fullMatch (r : Regex) (s : String) : Bool :=
  (matchRuns r s.data).any List.isEmpty

def emailLocalAscii (c : Char) : Bool :=
  c.isAlpha || c.isDigit || c = '.' || c = '_' || c = '%' || c = '+' || c = '-'

/-- Local-part class of the second e-mail alternative: the hiragana,
katakana and CJK ranges written in the pattern plus `\w._%+-`; `\w` is
taken at its ASCII meaning, the non-ASCII word characters the pattern cares
about being covered by the explicit ranges. -/
def emailLocalWide (c : Char) : Bool :=
  (0x3040 ≤ c.toNat && c.toNat ≤ 0x309F) || (0x30A0 ≤ c.toNat && c.toNat ≤ 0x30FF) ||
  (0x4E00 ≤ c.toNat && c.toNat ≤ 0x9FFF) || c.isAlphanum || c = '_' ||
  c = '.' || c = '%' || c = '+' || c = '-'

def emailDomainChar (c : Char) : Bool := c.isAlpha || c.isDigit || c = '.' || c = '-'

/-- Domain part `@[a-zA-Z0-9.-]+\.[a-zA-Z]{2,}` shared by both e-mail
alternatives. -/
def emailTail : Regex :=
  .seq (.lit '@') (.seq (.cls emailDomainChar 1 none)
    (.seq (.lit '.') (.cls Char.isAlpha 2 none)))

/-- `EMAIL_VALID_PATTERN` (candidate_verifier.py lines 29-32). -/
def EMAIL_VALID_PATTERN : Regex :=
  .alt (.seq (.cls emailLocalAscii 1 none) emailTail)
       (.seq (.cls emailLocalWide 1 none) emailTail)

def isDash (c : Char) : Bool := c = '-'

def dashOpt : Regex := .cls isDash 0 (some 1)

def digits (mn mx : Nat) : Regex := .cls Char.isDigit mn (some mx)

/-- `PHONE_JP_VALID` (candidate_verifier.py line 35). -/
def PHONE_JP_VALID : Regex :=
  .alt
    (.seq (.lit '0') (.seq (digits 1 4) (.seq dashOpt
      (.seq (digits 1 4) (.seq dashOpt (digits 4 4))))))
    (.seq (.lit '+') (.seq (.lit '8') (.seq (.lit '1') (.seq dashOpt
      (.seq (digits 1 4) (.seq dashOpt (.seq (digits 1 4)
        (.seq dashOpt (digits 4 4)))))))))

/-- `PHONE_EN_VALID` (candidate_verifier.py line 36). -/
def PHONE_EN_VALID : Regex :=
  .alt
    (.seq (.lit '+') (.seq (.lit '1') (.seq dashOpt (.seq (digits 3 3)
      (.seq dashOpt (.seq (digits 3 3) (.seq dashOpt (digits 4 4))))))))
    (.seq (.lit '(') (.seq (digits 3 3) (.seq (.lit ')')
      (.seq (.cls Char.isWhitespace 0 (some 1))
        (.seq (digits 3 3) (.seq (.lit '-') (digits 4 4)))))))

/-- `JP_ZIP_VALID` (candidate_verifier.py line 39). -/
def JP_ZIP_VALID : Regex :=
  .seq (.cls (fun c => c = '〒') 0 (some 1)) (.seq (.cls Char.isWhitespace 0 none)
    (.seq (digits 3 3) (.seq (.lit '-') (digits 4 4))))

/-- `US_ZIP_VALID` (candidate_verifier.py line 40). -/
def US_ZIP_VALID : Regex :=
  .seq (digits 5 5) (.opt (.seq (.lit '-') (digits 4 4)))

/-! ### Date validation (`_validate_date`, candidate_verifier.py lines 329-366)

The three date regexes are prefix matches (`re.match`) with captured digit
groups, so they are embedded as parsers returning the captured numbers. -/

def digitVal (c : Char) : Nat := c.toNat - 48

/-- Four digits followed by the separator, returning the year and the rest. -/
def parseYearThen (sep : Char) : List Char → Option (Nat × List Char)
  | y1 :: y2 :: y3 :: y4 :: c :: rest =>
    if y1.isDigit && y2.isDigit && y3.isDigit && y4.isDigit && c = sep then
      some (1000 * digitVal y1 + 100 * digitVal y2 + 10 * digitVal y3 + digitVal y4, rest)
    else none
  | _ => none

/-- Greedy `\d{1,2}` followed by a literal separator. -/
def parseOneTwoThen (sep : Char) : List Char → Option (Nat × List Char)
  | a :: b :: c :: rest =>
    if a.isDigit && b.isDigit && c = sep then some (10 * digitVal a + digitVal b, rest)
    else if a.isDigit && b = sep then some (digitVal a, c :: rest)
    else none
  | [a, b] => if a.isDigit && b = sep then some (digitVal a, []) else none
  | _ => none

/-- Greedy trailing `\d{1,2}` of an unanchored prefix match. -/
def parseOneTwoAny : List Char → Option Nat
  | a :: b :: _ =>
    if a.isDigit && b.isDigit then some (10 * digitVal a + digitVal b)
    else if a.isDigit then some (digitVal a) else none
  | [a] => if a.isDigit then some (digitVal a) else none
  | [] => none

/-- Exactly `\d{2}` followed by a literal separator. -/
def parseTwoThen (sep : Char) : List Char → Option (Nat × List Char)
  | a :: b :: c :: rest =>
    if a.isDigit && b.isDigit && c = sep then some (10 * digitVal a + digitVal b, rest)
    else none
  | _ => none

/-- Trailing `\d{2}` of an unanchored prefix match. -/
def parseTwoAny : List Char → Option Nat
  | a :: b :: _ => if a.isDigit && b.isDigit then some (10 * digitVal a + digitVal b) else none
  | _ => none

/-- Prefix match of `(\d{4})-(\d{2})-(\d{2})`. -/
def parseISO (cs : List Char) : Option (Nat × Nat × Nat) :=
  match parseYearThen '-' cs with
  | none => none
  | some (y, rest) =>
    match parseTwoThen '-' rest with
    | none => none
    | some (m, rest2) =>
      match parseTwoAny rest2 with
      | none => none
      | some d => some (y, m, d)

/-- Prefix match of `(\d{4})年(\d{1,2})月(\d{1,2})日`. -/
def parseKanjiDate (cs : List Char) : Option (Nat × Nat × Nat) :=
  match parseYearThen '年' cs with
  | none => none
  | some (y, rest) =>
    match parseOneTwoThen '月' rest with
    | none => none
    | some (m, rest2) =>
      match parseOneTwoThen '日' rest2 with
      | none => none
      | some (d, _) => some (y, m, d)

/-- Prefix match of `(\d{4})/(\d{1,2})/(\d{1,2})`. -/
def parseSlashDate (cs : List Char) : Option (Nat × Nat × Nat) :=
  match parseYearThen '/' cs with
  | none => none
  | some (y, rest) =>
    match parseOneTwoThen '/' rest with
    | none => none
    | some (m, rest2) =>
      match parseOneTwoAny rest2 with
      | none => none
      | some d => some (y, m, d)

/-- Range check applied to every matched date shape. -/
def dateOk (y m d : Nat) : Bool :=
  1 ≤ m && m ≤ 12 && 1 ≤ d && d ≤ 31 && 1900 ≤ y && y ≤ 2100

/-- `_validate_date`: each shape is tried in turn; a shape that matches with
out-of-range numbers falls through to the next shape. -/
def validate_date (text : String) : Bool :=
  (match parseISO text.data with | some (y, m, d) => dateOk y m d | none => false) ||
  (match parseKanjiDate text.data with | some (y, m, d) => dateOk y m d | none => false) ||
  (match parseSlashDate text.data with | some (y, m, d) => dateOk y m d | none => false)

/-- Python `str.strip` over the character list: drop leading and trailing
whitespace. -/
def stripChars (cs : List Char) : List Char :=
  ((cs.dropWhile Char.isWhitespace).reverse.dropWhile Char.isWhitespace).reverse

/-- `candidate.text.strip()` as a string operation. -/
def pyStrip (s : String) : String := ⟨stripChars s.data⟩

/-- `_validate_format` (candidate_verifier.py lines 277-327). -/
def validate_format (candidate : Candidate) : Bool × String :=
  let text := pyStrip candidate.text
  if candidate.entity_type = "EMAIL_ADDRESS" then
    if fullMatch EMAIL_VALID_PATTERN text then (true, "format_valid:email")
    else (false, "format_invalid:email")
  else if candidate.entity_type = "PHONE_NUMBER_JP" then
    if fullMatch PHONE_JP_VALID ((text.replace " " "").replace "　" "") then
      (true, "format_valid:phone_jp")
    else (false, "format_invalid:phone_jp")
  else if candidate.entity_type = "PHONE_NUMBER" then
    if fullMatch PHONE_EN_VALID (text.replace " " "") then (true, "format_valid:phone_en")
    else (false, "format_invalid:phone_en")
  else if candidate.entity_type = "JP_ZIP_CODE" then
    if fullMatch JP_ZIP_VALID text then (true, "format_valid:jp_zip")
    else (false, "format_invalid:jp_zip")
  else if candidate.entity_type = "US_ZIP_CODE" then
    if fullMatch US_ZIP_VALID text then (true, "format_valid:us_zip")
    else (false, "format_invalid:us_zip")
  else if candidate.entity_type = "DATE_OF_BIRTH_JP" ∨ candidate.entity_type = "DATE" then
    if validate_date text then (true, "format_valid:date")
    else (false, "format_invalid:date")
  else (true, "")

/-! ### Allow list, section policy, single-candidate verification -/

/-- `_normalize_text` (candidate_verifier.py lines 143-145). -/
def normalize_text (text : String) : String :=
  ((pyStrip text.toLower).replace " " "").replace "　" ""

/-- `_is_in_allow_list` (candidate_verifier.py lines 222-228). -/
def is_in_allow_list (cfg : VerifierConfig) (text : String) : Bool :=
  cfg.allow_list.contains text ||
    cfg.allow_list_normalized.contains (normalize_text text)

/-- `self.section_policies.get(section_type, {})` with per-field defaults. -/
def lookupSectionPolicy (sps : List (String × SectionPolicy)) (s : String) : SectionPolicy :=
  match sps.find? (fun kv => kv.1 == s) with
  | some kv => kv.2
  | none => ⟨0, 0, 0, 0⟩

/-- `_apply_section_policy` (candidate_verifier.py lines 230-275): person-like
and address-like entity types receive the net penalty+boost of their section,
clamped to `[0, 1]`, with a penalty or boost reason; a zero net adjustment
leaves score and reason unchanged. -/
def apply_section_policy (cfg : VerifierConfig) (candidate : Candidate) (score : ℚ) :
    ℚ × String :=
  let policy := lookupSectionPolicy cfg.section_policies candidate.section_type
  let personAdj := policy.person_penalty + policy.person_boost
  let addressAdj := policy.address_penalty + policy.address_boost
  if (candidate.entity_type = "JP_PERSON" ∨ candidate.entity_type = "PERSON") ∧ personAdj ≠ 0 then
    (max 0 (min 1 (score + personAdj)),
      if personAdj < 0 then "section_penalty:" ++ candidate.section_type
      else "section_boost:" ++ candidate.section_type)
  else if (candidate.entity_type = "JP_ADDRESS" ∨ candidate.entity_type = "LOCATION") ∧ addressAdj ≠ 0 then
    (max 0 (min 1 (score + addressAdj)),
      if addressAdj < 0 then "section_penalty:" ++ candidate.section_type
      else "section_boost:" ++ candidate.section_type)
  else (score, "")

/-- `_verify_single` (candidate_verifier.py lines 167-220): allow list first,
then section policy, then format validation, then threshold classification. -/
def verify_single (cfg : VerifierConfig) (candidate : Candidate) : VerificationResult :=
  if is_in_allow_list cfg candidate.text then
    ⟨candidate, 0, "exclude", "allow_list_match"⟩
  else
    let sp := apply_section_policy cfg candidate candidate.score
    let fv := validate_format candidate
    if fv.1 = false then
      ⟨candidate, 0, "exclude", fv.2⟩
    else
      let reasons := (if sp.2 = "" then [] else [sp.2]) ++ (if fv.2 = "" then [] else [fv.2])
      ⟨candidate, sp.1,
        if cfg.mask_threshold ≤ sp.1 then "mask"
        else if cfg.review_threshold ≤ sp.1 then "review"
        else "exclude",
        if reasons = [] then "passed_verification" else String.intercalate "; " reasons⟩

/-! ### Greedy collision scans

`_resolve_collisions` (candidate_verifier.py lines 368-422) and
`_merge_candidates` (candidate_extractor.py lines 580-622) share one loop
shape: scan the sorted list; for each element find the first accepted
element it overlaps; if none, accept it; if the new element beats the found
one, replace the found one (which is removed and the new element appended)
and record the found one as the loser, else record the new element as the
loser. -/

def collideScan {α : Type} [DecidableEq α] (ov beats : α → α → Bool) :
    List α → List α → List α × List α
  | resolved, [] => (resolved, [])
  | resolved, c :: rest =>
    match resolved.find? (fun ex => ov c ex) with
    | none => collideScan ov beats (resolved ++ [c]) rest
    | some ex =>
      if beats c ex then
        let pr := collideScan ov beats ((resolved.erase ex) ++ [c]) rest
        (pr.1, ex :: pr.2)
      else
        let pr := collideScan ov beats resolved rest
        (pr.1, c :: pr.2)

/-- Sort key `r.candidate.start` of `_resolve_collisions`. -/
def startVLE (a b : VerificationResult) : Prop :=
  a.candidate.start ≤ b.candidate.start

instance instDecStartVLE : DecidableRel startVLE := fun a b => by
  unfold startVLE; infer_instance

instance instTotalStartVLE : IsTotal VerificationResult startVLE where
  total a b := Nat.le_total a.candidate.start b.candidate.start

instance instTransStartVLE : IsTrans VerificationResult startVLE where
  trans _ _ _ hab hbc := Nat.le_trans hab hbc

/-- The reclassification applied to a collision loser
(candidate_verifier.py lines 403-416). -/
def collisionExclude (r : VerificationResult) : VerificationResult :=
  ⟨r.candidate, 0, "exclude", "collision_lower_priority"⟩

/-- `_resolve_collisions` (candidate_verifier.py lines 368-422): split into
active (`mask`/`review`) and excluded results, sort the active ones by start,
scan greedily keeping the lower `priority_index` member of a detected
overlap, and return winners followed by the excluded results and the
reclassified losers. -/
def resolve_collisions (cfg : VerifierConfig) (results : List VerificationResult) :
    List VerificationResult :=
  let active := results.filter (fun r => r.status == "mask" || r.status == "review")
  let excluded := results.filter (fun r => r.status == "exclude")
  if active.isEmpty then results
  else
    let scan := collideScan (fun a b => overlapsB a.candidate b.candidate)
      (fun a b => decide (priority_index cfg.entity_priority a.candidate.entity_type <
        priority_index cfg.entity_priority b.candidate.entity_type))
      [] (List.insertionSort startVLE active)
    scan.1 ++ excluded ++ scan.2.map collisionExclude

/-- Sort key `(c.start, priority_key(c), -c.score)` of `_merge_candidates`
(candidate_extractor.py lines 599-602). -/
def extractLE (prio : List String) (a b : Candidate) : Prop :=
  a.start < b.start ∨ (a.start = b.start ∧
    (priority_index prio a.entity_type < priority_index prio b.entity_type ∨
      (priority_index prio a.entity_type = priority_index prio b.entity_type ∧
        b.score ≤ a.score)))

instance instDecExtractLE (prio : List String) : DecidableRel (extractLE prio) :=
  fun a b => by unfold extractLE; infer_instance

instance instTotalExtractLE (prio : List String) : IsTotal Candidate (extractLE prio) where
  total a b := by
    unfold extractLE
    rcases lt_trichotomy a.start b.start with h | h | h
    · exact Or.inl (Or.inl h)
    · rcases lt_trichotomy (priority_index prio a.entity_type) (priority_index prio b.entity_type)
        with hp | hp | hp
      · exact Or.inl (Or.inr ⟨h, Or.inl hp⟩)
      · rcases le_total b.score a.score with hs | hs
        · exact Or.inl (Or.inr ⟨h, Or.inr ⟨hp, hs⟩⟩)
        · exact Or.inr (Or.inr ⟨h.symm, Or.inr ⟨hp.symm, hs⟩⟩)
      · exact Or.inr (Or.inr ⟨h.symm, Or.inl hp⟩)
    · exact Or.inr (Or.inl h)

instance instTransExtractLE (prio : List String) : IsTrans Candidate (extractLE prio) where
  trans a b c hab hbc := by
    unfold extractLE at *
    rcases hab with h1 | ⟨h1, h1r⟩
    · rcases hbc with h2 | ⟨h2, _⟩
      · exact Or.inl (h1.trans h2)
      · exact Or.inl (lt_of_lt_of_eq h1 h2)
    · rcases hbc with h2 | ⟨h2, h2r⟩
      · exact Or.inl (lt_of_eq_of_lt h1 h2)
      · refine Or.inr ⟨h1.trans h2, ?_⟩
        rcases h1r with hp1 | ⟨hp1, hs1⟩ <;> rcases h2r with hp2 | ⟨hp2, hs2⟩
        · exact Or.inl (hp1.trans hp2)
        · exact Or.inl (lt_of_lt_of_eq hp1 hp2)
        · exact Or.inl (lt_of_eq_of_lt hp1 hp2)
        · exact Or.inr ⟨hp1.trans hp2, hs2.trans hs1⟩

/-- `_merge_candidates` (candidate_extractor.py lines 580-622): sort by
`(start, priority, -score)` and run the replace-or-drop overlap scan,
discarding losers. -/
def merge_candidates (prio : List String) (candidates : List Candidate) : List Candidate :=
  (collideScan overlapsB
    (fun c ex => decide (priority_index prio c.entity_type < priority_index prio ex.entity_type) ||
      (decide (priority_index prio c.entity_type = priority_index prio ex.entity_type) &&
        decide (ex.score < c.score)))
    [] (List.insertionSort (extractLE prio) candidates)).1

/-- C6.  A candidate whose text is in the allow list, exactly or after
case/space normalization, is excluded with reason `allow_list_match` for
every configuration and every score; the remaining verification steps
(section policy, format validation, thresholds) never run. -/
theorem allow_list_exclusion (cfg : VerifierConfig) (cand : Candidate)
    (h : cand.text ∈ cfg.allow_list ∨ normalize_text cand.text ∈ cfg.allow_list_normalized) :
    verify_single cfg cand = ⟨cand, 0, "exclude", "allow_list_match"⟩ := by
  have hb : is_in_allow_list cfg cand.text = true := by
    unfold is_in_allow_list
    rcases h with h | h <;> simp [h]
  simp [verify_single, hb]

/-- Witness for C6: an exactly-matching high-score candidate is excluded. -/
theorem allow_list_exclusion_witness :
    verify_single ⟨7/10, 1/2, [], DEFAULT_PRIORITY, ["TestCorp"], ["testcorp"]⟩
      ⟨"PERSON", "TestCorp", 0, 8, 99/100, "ner:ginza", "s0", "contact"⟩ =
      ⟨⟨"PERSON", "TestCorp", 0, 8, 99/100, "ner:ginza", "s0", "contact"⟩, 0,
        "exclude", "allow_list_match"⟩ :=
  allow_list_exclusion ⟨7/10, 1/2, [], DEFAULT_PRIORITY, ["TestCorp"], ["testcorp"]⟩
    ⟨"PERSON", "TestCorp", 0, 8, 99/100, "ner:ginza", "s0", "contact"⟩
    (Or.inl (by decide))

/-- C7.  The net person adjustment of the candidate's section is added to
the score and clamped to `[0, 1]` before thresholds are applied; in the
spec's scenario (`education` penalty `-0.3`, `JP_PERSON` at score `0.8`,
mask threshold `0.7`, review threshold `0.5`) the verified score is `0.5`
and the status `review`, not `mask`. -/
theorem section_policy_adjustment (cfg : VerifierConfig) (cand : Candidate) (score : ℚ)
    (hperson : cand.entity_type = "JP_PERSON" ∨ cand.entity_type = "PERSON")
    (hadj : (lookupSectionPolicy cfg.section_policies cand.section_type).person_penalty +
      (lookupSectionPolicy cfg.section_policies cand.section_type).person_boost ≠ 0) :
    (apply_section_policy cfg cand score).1 =
      max 0 (min 1 (score +
        ((lookupSectionPolicy cfg.section_policies cand.section_type).person_penalty +
         (lookupSectionPolicy cfg.section_policies cand.section_type).person_boost))) ∧
    verify_single ⟨7/10, 1/2, [("education", ⟨-(3/10), 0, 0, 0⟩)], DEFAULT_PRIORITY, [], []⟩
        ⟨"JP_PERSON", "山田太郎", 10, 14, 4/5, "ner:ginza", "s2", "education"⟩ =
      ⟨⟨"JP_PERSON", "山田太郎", 10, 14, 4/5, "ner:ginza", "s2", "education"⟩, 1/2,
        "review", "section_penalty:education"⟩ := by
  constructor
  · unfold apply_section_policy
    rw [if_pos ⟨hperson, hadj⟩]
  · have hsp : apply_section_policy
        ⟨7/10, 1/2, [("education", ⟨-(3/10), 0, 0, 0⟩)], DEFAULT_PRIORITY, [], []⟩
        ⟨"JP_PERSON", "山田太郎", 10, 14, 4/5, "ner:ginza", "s2", "education"⟩ (4/5) =
        (1/2, "section_penalty:education") := by
      norm_num [apply_section_policy, lookupSectionPolicy]
      rfl
    have hfv : validate_format
        ⟨"JP_PERSON", "山田太郎", 10, 14, 4/5, "ner:ginza", "s2", "education"⟩ =
        (true, "") := by decide
    have hallow : is_in_allow_list
        ⟨7/10, 1/2, [("education", ⟨-(3/10), 0, 0, 0⟩)], DEFAULT_PRIORITY, [], []⟩
        "山田太郎" = false := by decide
    have hth1 : ¬ ((7 : ℚ)/10 ≤ 1/2) := by norm_num
    have hth2 : ((1 : ℚ)/2 ≤ 1/2) := le_refl _
    simp only [verify_single, hallow, Bool.false_eq_true, if_false, hsp, hfv, hth1, hth2]
    norm_num
    rfl

/-- Witness for C7 at the scenario configuration and candidate. -/
theorem section_policy_adjustment_witness :
    (apply_section_policy
        ⟨7/10, 1/2, [("education", ⟨-(3/10), 0, 0, 0⟩)], DEFAULT_PRIORITY, [], []⟩
        ⟨"JP_PERSON", "山田太郎", 10, 14, 4/5, "ner:ginza", "s2", "education"⟩ (4/5)).1 =
      max 0 (min 1 ((4/5 : ℚ) +
        ((lookupSectionPolicy [("education", ⟨-(3/10), 0, 0, 0⟩)] "education").person_penalty +
         (lookupSectionPolicy [("education", ⟨-(3/10), 0, 0, 0⟩)] "education").person_boost))) ∧
    verify_single ⟨7/10, 1/2, [("education", ⟨-(3/10), 0, 0, 0⟩)], DEFAULT_PRIORITY, [], []⟩
        ⟨"JP_PERSON", "山田太郎", 10, 14, 4/5, "ner:ginza", "s2", "education"⟩ =
      ⟨⟨"JP_PERSON", "山田太郎", 10, 14, 4/5, "ner:ginza", "s2", "education"⟩, 1/2,
        "review", "section_penalty:education"⟩ :=
  section_policy_adjustment
    ⟨7/10, 1/2, [("education", ⟨-(3/10), 0, 0, 0⟩)], DEFAULT_PRIORITY, [], []⟩
    ⟨"JP_PERSON", "山田太郎", 10, 14, 4/5, "ner:ginza", "s2", "education"⟩ (4/5)
    (Or.inl rfl) (by norm_num [lookupSectionPolicy, List.find?])

/-! ### Date-shape analysis for C8 -/

lemma parseYearThen_shape {sep : Char} {cs : List Char} {v : Nat × List Char}
    (h : parseYearThen sep cs = some v) :
    ∃ y1 y2 y3 y4 rest, cs = y1 :: y2 :: y3 :: y4 :: sep :: rest := by
  rcases cs with _ | ⟨y1, _ | ⟨y2, _ | ⟨y3, _ | ⟨y4, _ | ⟨c, rest⟩⟩⟩⟩⟩
  · exact absurd h (by simp [parseYearThen])
  · exact absurd h (by simp [parseYearThen])
  · exact absurd h (by simp [parseYearThen])
  · exact absurd h (by simp [parseYearThen])
  · exact absurd h (by simp [parseYearThen])
  · simp only [parseYearThen] at h
    split_ifs at h with hc
    simp only [Bool.and_eq_true, decide_eq_true_eq] at hc
    have hcs : c = sep := by tauto
    exact ⟨y1, y2, y3, y4, rest, by rw [hcs]⟩

lemma parseYearThen_ne {sep sep' : Char} {cs : List Char} {v : Nat × List Char}
    (h : parseYearThen sep cs = some v) (hne : sep ≠ sep') :
    parseYearThen sep' cs = none := by
  obtain ⟨y1, y2, y3, y4, rest, rfl⟩ := parseYearThen_shape h
  simp [parseYearThen, hne]

lemma parseISO_year {cs : List Char} {v : Nat × Nat × Nat} (h : parseISO cs = some v) :
    ∃ w, parseYearThen '-' cs = some w := by
  unfold parseISO at h
  rcases hy : parseYearThen '-' cs with _ | w
  · rw [hy] at h
    simp at h
  · exact ⟨w, rfl⟩

lemma parseKanjiDate_year {cs : List Char} {v : Nat × Nat × Nat}
    (h : parseKanjiDate cs = some v) : ∃ w, parseYearThen '年' cs = some w := by
  unfold parseKanjiDate at h
  rcases hy : parseYearThen '年' cs with _ | w
  · rw [hy] at h
    simp at h
  · exact ⟨w, rfl⟩

lemma parseSlashDate_year {cs : List Char} {v : Nat × Nat × Nat}
    (h : parseSlashDate cs = some v) : ∃ w, parseYearThen '/' cs = some w := by
  unfold parseSlashDate at h
  rcases hy : parseYearThen '/' cs with _ | w
  · rw [hy] at h
    simp at h
  · exact ⟨w, rfl⟩

lemma dateOk_iff {y m d : Nat} : dateOk y m d = true ↔
    1 ≤ m ∧ m ≤ 12 ∧ 1 ≤ d ∧ d ≤ 31 ∧ 1900 ≤ y ∧ y ≤ 2100 := by
  simp only [dateOk, Bool.and_eq_true, decide_eq_true_eq]
  omega

lemma match_dateOk_true {o : Option (Nat × Nat × Nat)}
    (h : (match o with | some (y, m, d) => dateOk y m d | none => false) = true) :
    ∃ y m d, o = some (y, m, d) ∧ dateOk y m d = true := by
  rcases o with _ | ⟨y, m, d⟩
  · simp at h
  · exact ⟨y, m, d, rfl, h⟩

/-- A text matches one of the three recognized date shapes with the given
year, month, day captures. -/
def dateShapeMatch (cs : List Char) (y m d : Nat) : Prop :=
  parseISO cs = some (y, m, d) ∨ parseKanjiDate cs = some (y, m, d) ∨
    parseSlashDate cs = some (y, m, d)

/-- C8.  `_validate_date` accepts exactly the texts matching a recognized
date shape with day in `[1, 31]`, month in `[1, 12]` and year in
`[1900, 2100]`; a `DATE` / `DATE_OF_BIRTH_JP` candidate whose (stripped)
text matches a shape with out-of-range year or month is rejected by
`_validate_format` with reason `format_invalid:date`. -/
theorem date_format_validation (t : String) (cand : Candidate)
    (htype : cand.entity_type = "DATE_OF_BIRTH_JP" ∨ cand.entity_type = "DATE")
    (y m d : Nat) (hshape : dateShapeMatch (pyStrip cand.text).data y m d)
    (hbad : y < 1900 ∨ 2100 < y ∨ m < 1 ∨ 12 < m) :
    (validate_date t = true ↔ ∃ y' m' d', dateShapeMatch t.data y' m' d' ∧
      1 ≤ m' ∧ m' ≤ 12 ∧ 1 ≤ d' ∧ d' ≤ 31 ∧ 1900 ≤ y' ∧ y' ≤ 2100) ∧
    validate_format cand = (false, "format_invalid:date") := by
  constructor
  · unfold validate_date
    constructor
    · intro h
      rw [Bool.or_eq_true, Bool.or_eq_true] at h
      rcases h with (h1 | h1) | h1
      · obtain ⟨y', m', d', ho, hok⟩ := @match_dateOk_true (parseISO t.data) h1
        exact ⟨y', m', d', Or.inl ho, dateOk_iff.1 hok⟩
      · obtain ⟨y', m', d', ho, hok⟩ := @match_dateOk_true (parseKanjiDate t.data) h1
        exact ⟨y', m', d', Or.inr (Or.inl ho), dateOk_iff.1 hok⟩
      · obtain ⟨y', m', d', ho, hok⟩ := @match_dateOk_true (parseSlashDate t.data) h1
        exact ⟨y', m', d', Or.inr (Or.inr ho), dateOk_iff.1 hok⟩
    · rintro ⟨y', m', d', hs, hr⟩
      have hok : dateOk y' m' d' = true := dateOk_iff.2 hr
      rcases hs with hs | hs | hs <;> simp [hs, hok]
  · have hok : dateOk y m d = false := by
      have hne : ¬ dateOk y m d = true := by
        rw [dateOk_iff]
        omega
      simpa using hne
    have hvd : validate_date (pyStrip cand.text) = false := by
      unfold validate_date
      rcases hshape with hs | hs | hs
      · obtain ⟨w, hw⟩ := parseISO_year hs
        have hk : parseYearThen '年' (pyStrip cand.text).data = none :=
          @parseYearThen_ne '-' '年' _ _ hw (by decide)
        have hsl : parseYearThen '/' (pyStrip cand.text).data = none :=
          @parseYearThen_ne '-' '/' _ _ hw (by decide)
        simp [hs, parseKanjiDate, parseSlashDate, hk, hsl, hok]
      · obtain ⟨w, hw⟩ := parseKanjiDate_year hs
        have hi : parseYearThen '-' (pyStrip cand.text).data = none :=
          @parseYearThen_ne '年' '-' _ _ hw (by decide)
        have hsl : parseYearThen '/' (pyStrip cand.text).data = none :=
          @parseYearThen_ne '年' '/' _ _ hw (by decide)
        simp [hs, parseISO, parseSlashDate, hi, hsl, hok]
      · obtain ⟨w, hw⟩ := parseSlashDate_year hs
        have hi : parseYearThen '-' (pyStrip cand.text).data = none :=
          @parseYearThen_ne '/' '-' _ _ hw (by decide)
        have hk : parseYearThen '年' (pyStrip cand.text).data = none :=
          @parseYearThen_ne '/' '年' _ _ hw (by decide)
        simp [hs, parseISO, parseKanjiDate, hi, hk, hok]
    rcases htype with h | h <;> simp [validate_format, h, hvd]

/-- Witness for C8: `2200-01-01` matches the ISO shape but its year is out of
range, so a `DATE` candidate carrying it is format-invalid. -/
theorem date_format_validation_witness :
    (validate_date "1985-03-12" = true ↔ ∃ y m d,
        dateShapeMatch (String.data "1985-03-12") y m d ∧
        1 ≤ m ∧ m ≤ 12 ∧ 1 ≤ d ∧ d ≤ 31 ∧ 1900 ≤ y ∧ y ≤ 2100) ∧
    validate_format ⟨"DATE", "2200-01-01", 0, 10, 9/10, "rule:date", "s0", "header"⟩ =
      (false, "format_invalid:date") :=
  date_format_validation "1985-03-12"
    ⟨"DATE", "2200-01-01", 0, 10, 9/10, "rule:date", "s0", "header"⟩
    (Or.inr rfl) 2200 1 1 (Or.inl (by decide)) (by omega)

/-! ### Invariants of the replace-or-drop collision scan

The geometric core: the scan processes elements in start order, so every
accepted element starts no later than the current one; two accepted
non-overlapping elements cannot both overlap the current element (both
would contain its start), hence the first overlapping accepted element
found is the only one, and replacing it keeps the accepted set pairwise
non-overlapping. -/

section CollideScan

variable {α : Type} [DecidableEq α] (s e : α → ℕ) (ov beats : α → α → Bool)

lemma ov_false_symm (hov : ∀ a b, ov a b = true ↔ (s b < e a ∧ s a < e b))
    {a b : α} (h : ov a b = false) : ov b a = false := by
  cases hba : ov b a
  · rfl
  · have h2 := (hov b a).1 hba
    have h3 : ov a b = true := (hov a b).2 ⟨h2.2, h2.1⟩
    rw [h] at h3
    exact Bool.noConfusion h3

lemma collideScan_resolved_subset :
    ∀ (rest acc : List α) (x : α), x ∈ (collideScan ov beats acc rest).1 →
      x ∈ acc ++ rest := by
  intro rest
  induction rest with
  | nil =>
    intro acc x hx
    simpa [collideScan] using hx
  | cons c rest ih =>
    intro acc x hx
    rcases hfind : acc.find? (fun ex => ov c ex) with _ | ex
    · rw [collideScan, hfind] at hx
      have := ih (acc ++ [c]) x hx
      simp only [List.mem_append, List.mem_cons, List.not_mem_nil, or_false] at this ⊢
      tauto
    · by_cases hb : beats c ex = true
      · rw [collideScan, hfind] at hx
        simp only [hb, if_true] at hx
        have := ih ((acc.erase ex) ++ [c]) x hx
        simp only [List.mem_append, List.mem_cons, List.not_mem_nil, or_false] at this ⊢
        rcases this with (hm | hm) | hm
        · exact Or.inl ((List.erase_sublist ex acc).subset hm)
        · exact Or.inr (Or.inl hm)
        · exact Or.inr (Or.inr hm)
      · rw [collideScan, hfind] at hx
        simp only [hb, if_false] at hx
        have := ih acc x hx
        simp only [List.mem_append, List.mem_cons] at this ⊢
        tauto

lemma collideScan_mem_or_loser :
    ∀ (rest acc : List α) (x : α), x ∈ acc ++ rest →
      x ∈ (collideScan ov beats acc rest).1 ∨ x ∈ (collideScan ov beats acc rest).2 := by
  intro rest
  induction rest with
  | nil =>
    intro acc x hx
    simp only [List.append_nil] at hx
    exact Or.inl (by simpa [collideScan] using hx)
  | cons c rest ih =>
    intro acc x hx
    rcases hfind : acc.find? (fun ex => ov c ex) with _ | ex
    · rw [collideScan, hfind]
      refine ih (acc ++ [c]) x ?_
      simp only [List.mem_append, List.mem_cons, List.not_mem_nil, or_false] at hx ⊢
      tauto
    · have hex_mem : ex ∈ acc := List.mem_of_find?_eq_some hfind
      by_cases hb : beats c ex = true
      · rw [collideScan, hfind]
        simp only [hb, if_true]
        by_cases hxex : x = ex
        · subst hxex
          exact Or.inr (by simp)
        · have hx' : x ∈ (acc.erase ex ++ [c]) ++ rest := by
            simp only [List.mem_append, List.mem_cons, List.not_mem_nil, or_false] at hx ⊢
            rcases hx with hm | hm | hm
            · exact Or.inl (Or.inl ((List.mem_erase_of_ne hxex).2 hm))
            · exact Or.inl (Or.inr hm)
            · exact Or.inr hm
          rcases ih (acc.erase ex ++ [c]) x hx' with hm | hm
          · exact Or.inl hm
          · exact Or.inr (by simp [hm])
      · rw [collideScan, hfind]
        simp only [hb, if_false]
        by_cases hxc : x = c
        · subst hxc
          exact Or.inr (by simp)
        · have hx' : x ∈ acc ++ rest := by
            simp only [List.mem_append, List.mem_cons] at hx ⊢
            tauto
          rcases ih acc x hx' with hm | hm
          · exact Or.inl hm
          · exact Or.inr (by simp [hm])

lemma collideScan_pairwise
    (hov : ∀ a b, ov a b = true ↔ (s b < e a ∧ s a < e b)) :
    ∀ (rest acc : List α), List.Sorted (fun a b => s a ≤ s b) rest →
      acc.Pairwise (fun a b => ov a b = false) →
      (∀ x ∈ acc, ∀ r ∈ rest, s x ≤ s r) →
      ((collideScan ov beats acc rest).1).Pairwise (fun a b => ov a b = false) := by
  intro rest
  induction rest with
  | nil =>
    intro acc _ hacc _
    simpa [collideScan] using hacc
  | cons c rest ih =>
    intro acc hsort hacc horder
    have hsort' : List.Sorted (fun a b => s a ≤ s b) rest := hsort.of_cons
    have hcrest : ∀ r ∈ rest, s c ≤ s r := List.rel_of_sorted_cons hsort
    rcases hfind : acc.find? (fun ex => ov c ex) with _ | ex
    · have hnone : ∀ x ∈ acc, ov c x = false := by
        intro x hx
        have := List.find?_eq_none.1 hfind x hx
        simpa using this
      have hpair' : (acc ++ [c]).Pairwise (fun a b => ov a b = false) := by
        rw [List.pairwise_append]
        refine ⟨hacc, by simp, ?_⟩
        intro x hx b hb
        rcases List.mem_singleton.1 hb with rfl
        exact ov_false_symm s e ov hov (hnone x hx)
      have horder' : ∀ x ∈ acc ++ [c], ∀ r ∈ rest, s x ≤ s r := by
        intro x hx r hr
        rcases List.mem_append.1 hx with hx | hx
        · exact horder x hx r (by simp [hr])
        · rcases List.mem_singleton.1 hx with rfl
          exact hcrest r hr
      rw [collideScan, hfind]
      exact ih (acc ++ [c]) hsort' hpair' horder'
    · have hex_mem : ex ∈ acc := List.mem_of_find?_eq_some hfind
      have hex_ov : ov c ex = true := by simpa using List.find?_some hfind
      have hexc := (hov c ex).1 hex_ov
      have hsx : s ex ≤ s c := horder ex hex_mem c (by simp)
      have hexcov : s ex < e ex := lt_of_le_of_lt hsx hexc.2
      have huniq : ∀ y ∈ acc.erase ex, ov c y = false := by
        intro y hy
        by_cases hyx : y = ex
        · subst hyx
          exfalso
          have hcount : 2 ≤ acc.count y := by
            have h1 : 0 < (acc.erase y).count y := List.count_pos_iff.2 hy
            have h2 := List.count_erase_self y acc
            omega
          have hsub : List.Sublist [y, y] acc := List.duplicate_iff_sublist.1
            (List.duplicate_iff_two_le_count.2 hcount)
          have hyy : ov y y = false :=
            (List.pairwise_cons.1 (List.Pairwise.sublist hsub hacc)).1 y (by simp)
          have hyy' : ov y y = true := (hov y y).2 ⟨hexcov, hexcov⟩
          rw [hyy] at hyy'
          exact Bool.noConfusion hyy'
        · have hymem : y ∈ acc := (List.erase_sublist ex acc).subset hy
          cases hyc : ov c y
          · rfl
          · exfalso
            have hy2 := (hov c y).1 hyc
            have hsy : s y ≤ s c := horder y hymem c (by simp)
            have hovexy : ov ex y = true :=
              (hov ex y).2 ⟨lt_of_le_of_lt hsy hexc.2, lt_of_le_of_lt hsx hy2.2⟩
            have hsymm : Symmetric (fun a b => ov a b = false) := by
              intro a b h
              exact ov_false_symm s e ov hov h
            have hfalse : ov ex y = false :=
              hacc.forall hsymm hex_mem hymem (fun h => hyx h.symm)
            rw [hfalse] at hovexy
            exact Bool.noConfusion hovexy
      by_cases hb : beats c ex = true
      · have hpair' : ((acc.erase ex) ++ [c]).Pairwise (fun a b => ov a b = false) := by
          rw [List.pairwise_append]
          refine ⟨List.Pairwise.sublist (List.erase_sublist ex acc) hacc, by simp, ?_⟩
          intro x hx b hb'
          rcases List.mem_singleton.1 hb' with rfl
          exact ov_false_symm s e ov hov (huniq x hx)
        have horder' : ∀ x ∈ (acc.erase ex) ++ [c], ∀ r ∈ rest, s x ≤ s r := by
          intro x hx r hr
          rcases List.mem_append.1 hx with hx | hx
          · exact horder x ((List.erase_sublist ex acc).subset hx) r (by simp [hr])
          · rcases List.mem_singleton.1 hx with rfl
            exact hcrest r hr
        rw [collideScan, hfind]
        simp only [hb, if_true]
        exact ih ((acc.erase ex) ++ [c]) hsort' hpair' horder'
      · rw [collideScan, hfind]
        simp only [hb, if_false]
        refine ih acc hsort' hacc ?_
        intro x hx r hr
        exact horder x hx r (by simp [hr])

end CollideScan

lemma overlapsB_iff (a b : Candidate) :
    overlapsB a b = true ↔ (b.start < a.end_ ∧ a.start < b.end_) := by
  simp only [overlapsB, Bool.not_eq_true', Bool.or_eq_false_iff, decide_eq_false_iff_not,
    not_le]

/-- C4.  The extractor's local merge returns a list with pairwise
non-overlapping `[start, end)` ranges, drawn from the input candidates;
losers of an overlap are dropped entirely. -/
theorem merge_candidates_nonoverlap (prio : List String) (cs : List Candidate) :
    (merge_candidates prio cs).Pairwise (fun a b => overlapsB a b = false) ∧
    ∀ x ∈ merge_candidates prio cs, x ∈ cs := by
  constructor
  · refine collideScan_pairwise Candidate.start Candidate.end_ overlapsB _
      overlapsB_iff (List.insertionSort (extractLE prio) cs) [] ?_ (by simp) (by simp)
    have hs := List.sorted_insertionSort (extractLE prio) cs
    refine hs.imp ?_
    intro a b hab
    rcases hab with h | ⟨h, _⟩
    · exact Nat.le_of_lt h
    · exact Nat.le_of_eq h
  · intro x hx
    have h1 := collideScan_resolved_subset overlapsB _
      (List.insertionSort (extractLE prio) cs) [] x hx
    simp only [List.nil_append] at h1
    exact (List.mem_insertionSort _).1 h1

/-- C3 (amended).  Collision resolution keeps a pairwise non-overlapping set
of active results, retains every input result either unchanged or
reclassified to `exclude` / `collision_lower_priority`, and for a batch
whose active results are exactly two overlapping results with distinct
priority indices it keeps the lower-index one for either input order.  (In
longer overlap chains the kept member of an overlapping pair need not be
the lower-priority one, and equal-priority equal-start ties depend on input
order.) -/
theorem resolve_collisions_amended (cfg : VerifierConfig) (rs : List VerificationResult)
    (A B : VerificationResult)
    (hstat : ∀ r ∈ rs, r.status = "mask" ∨ r.status = "review" ∨ r.status = "exclude")
    (hA : A.status = "mask" ∨ A.status = "review")
    (hB : B.status = "mask" ∨ B.status = "review")
    (hov : overlapsB A.candidate B.candidate = true)
    (hpr : priority_index cfg.entity_priority A.candidate.entity_type <
      priority_index cfg.entity_priority B.candidate.entity_type) :
    ((resolve_collisions cfg rs).filter
        (fun r => r.status == "mask" || r.status == "review")).Pairwise
      (fun a b => overlapsB a.candidate b.candidate = false) ∧
    (∀ r ∈ rs, r ∈ resolve_collisions cfg rs ∨
      collisionExclude r ∈ resolve_collisions cfg rs) ∧
    resolve_collisions cfg [A, B] = [A, collisionExclude B] ∧
    resolve_collisions cfg [B, A] = [A, collisionExclude B] := by
  have hpA : (A.status == "mask" || A.status == "review") = true := by
    rcases hA with h | h <;> simp [h]
  have hpB : (B.status == "mask" || B.status == "review") = true := by
    rcases hB with h | h <;> simp [h]
  have hqA : (A.status == "exclude") = false := by
    rcases hA with h | h <;> simp [h]
  have hqB : (B.status == "exclude") = false := by
    rcases hB with h | h <;> simp [h]
  have hovBA : overlapsB B.candidate A.candidate = true := by
    have h2 := (overlapsB_iff A.candidate B.candidate).1 hov
    exact (overlapsB_iff B.candidate A.candidate).2 ⟨h2.2, h2.1⟩
  have hbAB : (decide (priority_index cfg.entity_priority A.candidate.entity_type <
      priority_index cfg.entity_priority B.candidate.entity_type)) = true := by
    simpa using hpr
  have hbBA : (decide (priority_index cfg.entity_priority B.candidate.entity_type <
      priority_index cfg.entity_priority A.candidate.entity_type)) = false := by
    simp
    omega
  refine ⟨?_, ?_, ?_, ?_⟩
  · by_cases hemp : (rs.filter (fun r => r.status == "mask" || r.status == "review")).isEmpty
    · have hnil : rs.filter (fun r => r.status == "mask" || r.status == "review") = [] :=
        List.isEmpty_iff.1 hemp
      rw [resolve_collisions]
      simp only [hemp, if_true, hnil]
      simp [hnil]
    · rw [resolve_collisions]
      simp only [hemp, Bool.false_eq_true, if_false]
      rw [List.filter_append, List.filter_append]
      have hex : (rs.filter (fun r => r.status == "exclude")).filter
          (fun r => r.status == "mask" || r.status == "review") = [] := by
        rw [List.filter_eq_nil_iff]
        intro r hr
        have h1 : (r.status == "exclude") = true := (List.mem_filter.1 hr).2
        have h2 : r.status = "exclude" := by simpa using h1
        simp [h2]
      have hlos : ∀ (l : List VerificationResult), (l.map collisionExclude).filter
          (fun r => r.status == "mask" || r.status == "review") = [] := by
        intro l
        rw [List.filter_eq_nil_iff]
        intro r hr
        rcases List.mem_map.1 hr with ⟨x, _, rfl⟩
        simp [collisionExclude]
      rw [hex, hlos]
      simp only [List.append_nil, List.nil_append]
      refine List.Pairwise.sublist (List.filter_sublist _) ?_
      refine collideScan_pairwise (fun r : VerificationResult => r.candidate.start)
        (fun r : VerificationResult => r.candidate.end_)
        (fun a b : VerificationResult => overlapsB a.candidate b.candidate)
        (fun a b : VerificationResult =>
          decide (priority_index cfg.entity_priority a.candidate.entity_type <
            priority_index cfg.entity_priority b.candidate.entity_type))
        (fun a b => overlapsB_iff a.candidate b.candidate) _ [] ?_ (by simp) (by simp)
      have hs := List.sorted_insertionSort startVLE
        (rs.filter (fun r => r.status == "mask" || r.status == "review"))
      exact hs.imp (fun h => h)
  · intro r hr
    by_cases hemp : (rs.filter (fun r => r.status == "mask" || r.status == "review")).isEmpty
    · rw [resolve_collisions]
      simp only [hemp, if_true]
      exact Or.inl hr
    · rw [resolve_collisions]
      simp only [hemp, Bool.false_eq_true, if_false]
      rcases hstat r hr with hst | hst | hst
      · have hmem : r ∈ List.insertionSort startVLE
            (rs.filter (fun r => r.status == "mask" || r.status == "review")) := by
          rw [List.mem_insertionSort]
          exact List.mem_filter.2 ⟨hr, by simp [hst]⟩
        rcases collideScan_mem_or_loser
            (fun a b => overlapsB a.candidate b.candidate)
            (fun a b => decide (priority_index cfg.entity_priority a.candidate.entity_type <
              priority_index cfg.entity_priority b.candidate.entity_type))
            (List.insertionSort startVLE
              (rs.filter (fun r => r.status == "mask" || r.status == "review"))) [] r
            (by simpa using hmem) with hm | hm
        · exact Or.inl (by simp [hm])
        · exact Or.inr (by simp [List.mem_map]; exact Or.inr (Or.inr ⟨r, hm, rfl⟩))
      · have hmem : r ∈ List.insertionSort startVLE
            (rs.filter (fun r => r.status == "mask" || r.status == "review")) := by
          rw [List.mem_insertionSort]
          exact List.mem_filter.2 ⟨hr, by simp [hst]⟩
        rcases collideScan_mem_or_loser
            (fun a b => overlapsB a.candidate b.candidate)
            (fun a b => decide (priority_index cfg.entity_priority a.candidate.entity_type <
              priority_index cfg.entity_priority b.candidate.entity_type))
            (List.insertionSort startVLE
              (rs.filter (fun r => r.status == "mask" || r.status == "review"))) [] r
            (by simpa using hmem) with hm | hm
        · exact Or.inl (by simp [hm])
        · exact Or.inr (by simp [List.mem_map]; exact Or.inr (Or.inr ⟨r, hm, rfl⟩))
      · refine Or.inl ?_
        have hmem : r ∈ rs.filter (fun r => r.status == "exclude") :=
          List.mem_filter.2 ⟨hr, by simp [hst]⟩
        simp [hmem]
  · rw [resolve_collisions]
    simp only [List.filter_cons, hpA, hpB, hqA, hqB, List.filter_nil, if_true, if_false,
      List.isEmpty_cons, Bool.false_eq_true]
    by_cases hAB : startVLE A B
    · simp only [List.insertionSort, List.orderedInsert, hAB, if_true]
      simp [collideScan, List.find?, hovBA, hbBA]
    · simp only [List.insertionSort, List.orderedInsert, hAB, if_false]
      simp [collideScan, List.find?, hov, hbAB, List.erase_cons_head]
  · rw [resolve_collisions]
    simp only [List.filter_cons, hpA, hpB, hqA, hqB, List.filter_nil, if_true, if_false,
      List.isEmpty_cons, Bool.false_eq_true]
    by_cases hBA : startVLE B A
    · simp only [List.insertionSort, List.orderedInsert, hBA, if_true]
      simp [collideScan, List.find?, hov, hbAB, List.erase_cons_head]
    · simp only [List.insertionSort, List.orderedInsert, hBA, if_false]
      simp [collideScan, List.find?, hovBA, hbBA]

/-- Witness for C3 (amended) at the email-over-address collision of the
repository's own test. -/
theorem resolve_collisions_amended_witness :
    ((resolve_collisions ⟨1, 0, [], DEFAULT_PRIORITY, [], []⟩
        [⟨⟨"EMAIL_ADDRESS", "test@example.com", 0, 16, 1, "rule:email", "s0", "contact"⟩,
          1, "mask", "ok"⟩,
         ⟨⟨"JP_ADDRESS", "test@example", 0, 12, 1, "rule:addr", "s0", "contact"⟩,
          1, "mask", "ok"⟩]).filter
        (fun r => r.status == "mask" || r.status == "review")).Pairwise
      (fun a b => overlapsB a.candidate b.candidate = false) ∧
    (∀ r ∈ [⟨⟨"EMAIL_ADDRESS", "test@example.com", 0, 16, 1, "rule:email", "s0", "contact"⟩,
          1, "mask", "ok"⟩,
         ⟨⟨"JP_ADDRESS", "test@example", 0, 12, 1, "rule:addr", "s0", "contact"⟩,
          1, "mask", "ok"⟩],
      r ∈ resolve_collisions ⟨1, 0, [], DEFAULT_PRIORITY, [], []⟩
        [⟨⟨"EMAIL_ADDRESS", "test@example.com", 0, 16, 1, "rule:email", "s0", "contact"⟩,
          1, "mask", "ok"⟩,
         ⟨⟨"JP_ADDRESS", "test@example", 0, 12, 1, "rule:addr", "s0", "contact"⟩,
          1, "mask", "ok"⟩] ∨
      collisionExclude r ∈ resolve_collisions ⟨1, 0, [], DEFAULT_PRIORITY, [], []⟩
        [⟨⟨"EMAIL_ADDRESS", "test@example.com", 0, 16, 1, "rule:email", "s0", "contact"⟩,
          1, "mask", "ok"⟩,
         ⟨⟨"JP_ADDRESS", "test@example", 0, 12, 1, "rule:addr", "s0", "contact"⟩,
          1, "mask", "ok"⟩]) ∧
    resolve_collisions ⟨1, 0, [], DEFAULT_PRIORITY, [], []⟩
        [⟨⟨"EMAIL_ADDRESS", "test@example.com", 0, 16, 1, "rule:email", "s0", "contact"⟩,
          1, "mask", "ok"⟩,
         ⟨⟨"JP_ADDRESS", "test@example", 0, 12, 1, "rule:addr", "s0", "contact"⟩,
          1, "mask", "ok"⟩] =
      [⟨⟨"EMAIL_ADDRESS", "test@example.com", 0, 16, 1, "rule:email", "s0", "contact"⟩,
          1, "mask", "ok"⟩,
       collisionExclude ⟨⟨"JP_ADDRESS", "test@example", 0, 12, 1, "rule:addr", "s0", "contact"⟩,
          1, "mask", "ok"⟩] ∧
    resolve_collisions ⟨1, 0, [], DEFAULT_PRIORITY, [], []⟩
        [⟨⟨"JP_ADDRESS", "test@example", 0, 12, 1, "rule:addr", "s0", "contact"⟩,
          1, "mask", "ok"⟩,
         ⟨⟨"EMAIL_ADDRESS", "test@example.com", 0, 16, 1, "rule:email", "s0", "contact"⟩,
          1, "mask", "ok"⟩] =
      [⟨⟨"EMAIL_ADDRESS", "test@example.com", 0, 16, 1, "rule:email", "s0", "contact"⟩,
          1, "mask", "ok"⟩,
       collisionExclude ⟨⟨"JP_ADDRESS", "test@example", 0, 12, 1, "rule:addr", "s0", "contact"⟩,
          1, "mask", "ok"⟩] :=
  resolve_collisions_amended ⟨1, 0, [], DEFAULT_PRIORITY, [], []⟩
    [⟨⟨"EMAIL_ADDRESS", "test@example.com", 0, 16, 1, "rule:email", "s0", "contact"⟩,
      1, "mask", "ok"⟩,
     ⟨⟨"JP_ADDRESS", "test@example", 0, 12, 1, "rule:addr", "s0", "contact"⟩,
      1, "mask", "ok"⟩]
    ⟨⟨"EMAIL_ADDRESS", "test@example.com", 0, 16, 1, "rule:email", "s0", "contact"⟩,
      1, "mask", "ok"⟩
    ⟨⟨"JP_ADDRESS", "test@example", 0, 12, 1, "rule:addr", "s0", "contact"⟩,
      1, "mask", "ok"⟩
    (by decide) (Or.inl rfl) (Or.inl rfl) (by decide) (by decide)

/-- C3 counterexample: two equal-priority, equal-span active results.  The
kept/excluded outcome of this overlapping pair flips when the input order is
permuted, so collision resolution is not order-independent as claimed. -/
theorem resolve_collisions_order_dependence :
    resolve_collisions ⟨1, 0, [], DEFAULT_PRIORITY, [], []⟩
        [⟨⟨"JP_PERSON", "山田", 0, 5, 1, "ner", "s0", "header"⟩, 1, "mask", "r1"⟩,
         ⟨⟨"JP_PERSON", "佐藤", 0, 5, 1, "ner", "s0", "header"⟩, 1, "mask", "r2"⟩] =
      [⟨⟨"JP_PERSON", "山田", 0, 5, 1, "ner", "s0", "header"⟩, 1, "mask", "r1"⟩,
       collisionExclude ⟨⟨"JP_PERSON", "佐藤", 0, 5, 1, "ner", "s0", "header"⟩, 1, "mask", "r2"⟩] ∧
    resolve_collisions ⟨1, 0, [], DEFAULT_PRIORITY, [], []⟩
        [⟨⟨"JP_PERSON", "佐藤", 0, 5, 1, "ner", "s0", "header"⟩, 1, "mask", "r2"⟩,
         ⟨⟨"JP_PERSON", "山田", 0, 5, 1, "ner", "s0", "header"⟩, 1, "mask", "r1"⟩] =
      [⟨⟨"JP_PERSON", "佐藤", 0, 5, 1, "ner", "s0", "header"⟩, 1, "mask", "r2"⟩,
       collisionExclude ⟨⟨"JP_PERSON", "山田", 0, 5, 1, "ner", "s0", "header"⟩, 1, "mask", "r1"⟩] ∧
    overlapsB ⟨"JP_PERSON", "山田", 0, 5, 1, "ner", "s0", "header"⟩
      ⟨"JP_PERSON", "佐藤", 0, 5, 1, "ner", "s0", "header"⟩ = true := by
  decide

/-- C5 counterexample: with the default configuration the extractor's
priority list is the five-element `default_extraction_priority`, not the
thirteen-element ordering the spec states; `PHONE_NUMBER` is absent from it
(index 5 = list length), so an overlapping `JP_ZIP_CODE` wins the local
merge, while under the claimed thirteen-element ordering `PHONE_NUMBER`
(index 2) would win. -/
theorem extraction_priority_default_counterexample :
    merge_candidates default_extraction_priority
        [⟨"PHONE_NUMBER", "(123) 456-7890", 0, 14, 1, "rule:phone_en", "s0", "header"⟩,
         ⟨"JP_ZIP_CODE", "123-4567", 0, 8, 1, "rule:jp_zip", "s0", "header"⟩] =
      [⟨"JP_ZIP_CODE", "123-4567", 0, 8, 1, "rule:jp_zip", "s0", "header"⟩] ∧
    merge_candidates DEFAULT_PRIORITY
        [⟨"PHONE_NUMBER", "(123) 456-7890", 0, 14, 1, "rule:phone_en", "s0", "header"⟩,
         ⟨"JP_ZIP_CODE", "123-4567", 0, 8, 1, "rule:jp_zip", "s0", "header"⟩] =
      [⟨"PHONE_NUMBER", "(123) 456-7890", 0, 14, 1, "rule:phone_en", "s0", "header"⟩] ∧
    priority_index DEFAULT_PRIORITY "PHONE_NUMBER" = 2 ∧
    priority_index default_extraction_priority "PHONE_NUMBER" = 5 ∧
    default_extraction_priority ≠ DEFAULT_PRIORITY := by
  decide

/-- C5 (amended).  The local merge orders candidates by
`(start, priority_index, -score)` over the configured priority list; the
extractor's default list is the five-element one, and entity types absent
from the list rank after every listed type. -/
theorem extraction_priority_amended (prio : List String) (cs : List Candidate)
    (t u : String) (ht : t ∉ prio) (hu : u ∈ prio) :
    List.Sorted (extractLE prio) (List.insertionSort (extractLE prio) cs) ∧
    List.Perm (List.insertionSort (extractLE prio) cs) cs ∧
    priority_index prio t = prio.length ∧
    priority_index prio u < priority_index prio t ∧
    default_extraction_priority =
      ["EMAIL_ADDRESS", "PHONE_NUMBER_JP", "JP_ZIP_CODE", "JP_ADDRESS", "JP_PERSON"] := by
  have h2 : priority_index prio t = prio.length := List.indexOf_eq_length.2 ht
  refine ⟨List.sorted_insertionSort _ _, List.perm_insertionSort _ _, h2, ?_, rfl⟩
  have h1 : priority_index prio u < prio.length := List.indexOf_lt_length.2 hu
  omega

/-- Witness for C5 (amended) on the default extractor list. -/
theorem extraction_priority_amended_witness :
    List.Sorted (extractLE default_extraction_priority)
      (List.insertionSort (extractLE default_extraction_priority)
        [⟨"PHONE_NUMBER", "(123) 456-7890", 0, 14, 1, "rule:phone_en", "s0", "header"⟩,
         ⟨"JP_ZIP_CODE", "123-4567", 0, 8, 1, "rule:jp_zip", "s0", "header"⟩]) ∧
    List.Perm (List.insertionSort (extractLE default_extraction_priority)
        [⟨"PHONE_NUMBER", "(123) 456-7890", 0, 14, 1, "rule:phone_en", "s0", "header"⟩,
         ⟨"JP_ZIP_CODE", "123-4567", 0, 8, 1, "rule:jp_zip", "s0", "header"⟩])
      [⟨"PHONE_NUMBER", "(123) 456-7890", 0, 14, 1, "rule:phone_en", "s0", "header"⟩,
       ⟨"JP_ZIP_CODE", "123-4567", 0, 8, 1, "rule:jp_zip", "s0", "header"⟩] ∧
    priority_index default_extraction_priority "PHONE_NUMBER" =
      default_extraction_priority.length ∧
    priority_index default_extraction_priority "EMAIL_ADDRESS" <
      priority_index default_extraction_priority "PHONE_NUMBER" ∧
    default_extraction_priority =
      ["EMAIL_ADDRESS", "PHONE_NUMBER_JP", "JP_ZIP_CODE", "JP_ADDRESS", "JP_PERSON"] :=
  extraction_priority_amended default_extraction_priority
    [⟨"PHONE_NUMBER", "(123) 456-7890", 0, 14, 1, "rule:phone_en", "s0", "header"⟩,
     ⟨"JP_ZIP_CODE", "123-4567", 0, 8, 1, "rule:jp_zip", "s0", "header"⟩]
    "PHONE_NUMBER" "EMAIL_ADDRESS" (by decide) (by decide)

end PdfMasking
